import Mathlib

set_option maxRecDepth 100000
set_option maxHeartbeats 1000000

/-!
Verification development for the WeChat article scraper
(`src/scraper.js`, class `WeChatArticleScraper`; the latest revision of the
module is the authority).  The JavaScript code is shallowly embedded:

* `parsePublishDate` (src/scraper.js:498-561) is embedded together with the
  four date grammars it tries.  JS regular expressions are embedded via a
  small backtracking regex engine (`RE`, `matchRE`) whose ordered
  alternation and greedy optionals reproduce JS regex semantics for the
  patterns used in the source.
* `new Date(isoLike)` / `Date.prototype.toISOString` are embedded by
  `v8ParseIso` / `toISOString` over epoch milliseconds, following the
  ECMAScript Date Time String Format: fields are range-checked
  (month 1-12, day 1-31, hour at most 24, minute/second at most 59, offset
  hour at most 23) and the instant is computed by proleptic-Gregorian
  arithmetic, so day overflow within 1-31 rolls arithmetically into the
  next month exactly as `MakeDay` does.
* cheerio selections are embedded at the query boundary: a `PageDoc` record
  carries the text/attribute of each selector the code queries, and the
  content root is a concrete DOM tree (`DomNode`) so that `fixLazyImages`
  can be analysed attribute by attribute.
* the session orchestration (`scrapeArticle`, `scrapeWithProxy`) is embedded
  over an oracle `Nat → AttemptEnv` describing how each attempt's external
  effects (connect, the three `page.goto` tries, the two possible
  `browser.close` calls) behave; thrown JS exceptions become `Except` and
  the observable per-attempt logs/sessions become an `Event` trace.
-/

/-! ## Characters, whitespace, strings -/

/-- The characters matched by JS `\s` (WhiteSpace ∪ LineTerminator). -/
def isJsSpace (c : Char) : Bool :=
  let n := c.toNat
  n == 9 || n == 10 || n == 11 || n == 12 || n == 13 || n == 32 ||
  n == 0x00a0 || n == 0x1680 || (0x2000 ≤ n && n ≤ 0x200a) ||
  n == 0x2028 || n == 0x2029 || n == 0x202f || n == 0x205f ||
  n == 0x3000 || n == 0xfeff

/-- JS `String.prototype.trim`: drop leading and trailing whitespace. -/
def jsTrim (s : List Char) : List Char :=
  ((s.dropWhile isJsSpace).reverse.dropWhile isJsSpace).reverse

/-- The global replace `/(?:发布时间[:：]?|发布于|北京时间)/g → ''` of
`parsePublishDate`'s preprocessing: every occurrence of a label is removed,
scanning left to right; the optional colon after 发布时间 is consumed
greedily, as in the source regex. -/
def stripLabels : List Char → List Char
  | [] => []
  | '发' :: '布' :: '时' :: '间' :: ':' :: rest => stripLabels rest
  | '发' :: '布' :: '时' :: '间' :: '：' :: rest => stripLabels rest
  | '发' :: '布' :: '时' :: '间' :: rest => stripLabels rest
  | '发' :: '布' :: '于' :: rest => stripLabels rest
  | '北' :: '京' :: '时' :: '间' :: rest => stripLabels rest
  | c :: rest => c :: stripLabels rest

mutual

/-- The global replace `/\s+/g → ' '`: each maximal whitespace run becomes a
single space. -/
def collapseWs : List Char → List Char
  | [] => []
  | c :: rest =>
    if isJsSpace c then ' ' :: collapseSkip rest
    else c :: collapseWs rest

/-- Helper of `collapseWs`: inside a whitespace run (already emitted `' '`),
skip the rest of the run. -/
def collapseSkip : List Char → List Char
  | [] => []
  | c :: rest =>
    if isJsSpace c then collapseSkip rest
    else c :: collapseWs rest

end

/-- Prefix test on character lists, up to a character equivalence. -/
def isPfxBy (eq : Char → Char → Bool) : List Char → List Char → Bool
  | [], _ => true
  | _ :: _, [] => false
  | a :: as, b :: bs => eq a b && isPfxBy eq as bs

/-- Substring containment up to a character equivalence (JS
`String.prototype.includes` / a `RegExp.test` of a literal). -/
def containsSubBy (eq : Char → Char → Bool) (needle : List Char) : List Char → Bool
  | [] => isPfxBy eq needle []
  | c :: rest => isPfxBy eq needle (c :: rest) || containsSubBy eq needle rest

/-- JS `String.prototype.includes` (case sensitive). -/
def containsSub (needle hay : List Char) : Bool :=
  containsSubBy (fun a b => a == b) needle hay

/-- Case-insensitive substring containment (a `/…/i.test`). -/
def containsSubCI (needle hay : List Char) : Bool :=
  containsSubBy (fun a b => a.toLower == b.toLower) needle hay

/-- The ASCII digit character of `n % 10`. -/
def digitChar (n : Nat) : Char := Char.ofNat (48 + n % 10)

/-- Fuel-driven decimal rendering (structural recursion so that the kernel
can evaluate it); `fuel` bounds the number of digits. -/
def natCharsAux : Nat → Nat → List Char
  | 0, _ => []
  | fuel + 1, n =>
    if n < 10 then [digitChar n]
    else natCharsAux fuel (n / 10) ++ [digitChar (n % 10)]

/-- Decimal rendering of a natural number (JS `String(n)` for naturals). -/
def natChars (n : Nat) : List Char := natCharsAux (n + 1) n

/-- JS `String(n).padStart(w, '0')`. -/
def padN (w : Nat) (n : Nat) : List Char :=
  List.replicate (w - (natChars n).length) '0' ++ natChars n

/-- JS `parseInt(s, 10)` restricted to all-digit strings (the only use in
the source: every argument is a regex capture made of digits). -/
def natOfDigits (ds : List Char) : Nat :=
  ds.foldl (fun a c => 10 * a + (c.toNat - 48)) 0

/-! ## A backtracking regex engine

JS regexes (without lookaround and backreferences, which the source does not
use) have ordered alternation and greedy quantifiers with backtracking.
`matchRE` is a continuation-passing matcher with exactly those semantics;
`searchRE` finds the leftmost match, like `String.prototype.match` with a
non-global regex. -/

/-- Regex syntax: character classes, sequencing, ordered alternation, greedy
option, greedy star of a character class, and numbered capture groups. -/
inductive RE where
  | eps
  | ch (p : Char → Bool)
  | seq (a b : RE)
  | alt (a b : RE)
  | opt (a : RE)
  | starCh (p : Char → Bool)
  | grp (i : Nat) (a : RE)

/-- Captured groups of a match: group index ↦ captured characters.  The most
recent binding (head-most) wins; each group binds at most once per match. -/
abbrev Caps := List (Nat × List Char)

/-- Greedy Kleene star of a character class: consume as much as possible,
backtracking one character at a time on failure of the continuation. -/
def starGreedy (p : Char → Bool) (s : List Char) (caps : Caps)
    (k : List Char → Caps → Option Caps) : Option Caps :=
  match s with
  | [] => k [] caps
  | c :: rest =>
    if p c then (starGreedy p rest caps k) <|> k (c :: rest) caps
    else k (c :: rest) caps

/-- The backtracking matcher: `matchRE r s caps k` tries to match `r` at the
start of `s` and passes the remainder and captures to `k`; alternatives are
tried left to right and optionals are greedy, as in JS. -/
def matchRE : RE → List Char → Caps → (List Char → Caps → Option Caps) → Option Caps
  | .eps, s, caps, k => k s caps
  | .ch p, s, caps, k =>
    match s with
    | [] => none
    | c :: rest => if p c then k rest caps else none
  | .seq a b, s, caps, k => matchRE a s caps (fun s1 c1 => matchRE b s1 c1 k)
  | .alt a b, s, caps, k => (matchRE a s caps k) <|> matchRE b s caps k
  | .opt a, s, caps, k => (matchRE a s caps k) <|> k s caps
  | .starCh p, s, caps, k => starGreedy p s caps k
  | .grp i a, s, caps, k =>
    matchRE a s caps (fun s1 c1 => k s1 ((i, s.take (s.length - s1.length)) :: c1))

/-- Leftmost search (`String.prototype.match` without `/g`): try each start
position from the left; group 0 is the whole matched text. -/
def searchRE (r : RE) : List Char → Option Caps
  | [] => matchRE (.grp 0 r) [] [] (fun _ caps => some caps)
  | c :: rest =>
    (matchRE (.grp 0 r) (c :: rest) [] (fun _ caps => some caps)) <|> searchRE r rest

/-- Look up a capture group (JS `match[i]`, `none` = `undefined`). -/
def capGet (caps : Caps) (i : Nat) : Option (List Char) :=
  (caps.find? (fun p => p.1 == i)).map (fun p => p.2)

/-! The character classes and regexes of `parsePublishDate`. -/

/-- Class `\d` (ASCII digits only, as in JS). -/
def reD : RE := .ch Char.isDigit

/-- A literal character. -/
def reL (c : Char) : RE := .ch (fun x => x == c)

/-- Sequence of a list of regexes. -/
def reCat (l : List RE) : RE := l.foldr .seq .eps

/-- Pattern `\d{1,2}` (greedy). -/
def reD12 : RE := .seq reD (.opt reD)

/-- Class `[T\s]` under the `i` flag. -/
def reTSepI : RE := .ch (fun c => c == 'T' || c == 't' || isJsSpace c)

/-- Pattern `([上下]午|AM|PM)` under the `i` flag (ordered alternation). -/
def reAmPm : RE :=
  .alt (reCat [.ch (fun c => c == '上' || c == '下'), reL '午'])
    (.alt (reCat [.ch (fun c => c == 'A' || c == 'a'), .ch (fun c => c == 'M' || c == 'm')])
      (reCat [.ch (fun c => c == 'P' || c == 'p'), .ch (fun c => c == 'M' || c == 'm')]))

/-- Grammar 1 of `parsePublishDate` (src/scraper.js:510):
`/\d{4}-\d{2}-\d{2}[T\s]\d{2}:\d{2}(?::\d{2}(?:\.\d{3})?)?(?:Z|[+-]\d{2}:?\d{2})/i`. -/
def isoTzRE : RE :=
  reCat [reD, reD, reD, reD, reL '-', reD, reD, reL '-', reD, reD,
    reTSepI, reD, reD, reL ':', reD, reD,
    .opt (reCat [reL ':', reD, reD, .opt (reCat [reL '.', reD, reD, reD])]),
    .alt (.ch (fun c => c == 'Z' || c == 'z'))
      (reCat [.ch (fun c => c == '+' || c == '-'), reD, reD, .opt (reL ':'), reD, reD])]

/-- Grammar 2 of `parsePublishDate` (src/scraper.js:520):
`/(?:(\d{4})年)?\s*(\d{1,2})月\s*(\d{1,2})日\s*(?:([上下]午|AM|PM)\s*)?(\d{1,2})(?::(\d{1,2})(?::(\d{1,2}))?)?/i`. -/
def cnRE : RE :=
  reCat [.opt (reCat [.grp 1 (reCat [reD, reD, reD, reD]), reL '年']),
    .starCh isJsSpace, .grp 2 reD12, reL '月',
    .starCh isJsSpace, .grp 3 reD12, reL '日',
    .starCh isJsSpace,
    .opt (reCat [.grp 4 reAmPm, .starCh isJsSpace]),
    .grp 5 reD12,
    .opt (reCat [reL ':', .grp 6 reD12, .opt (reCat [reL ':', .grp 7 reD12])])]

/-- Grammar 3 of `parsePublishDate` (src/scraper.js:538):
`/(\d{4})-(\d{2})-(\d{2})[T\s](\d{1,2}):(\d{2})(?::(\d{2}))?(?:\s*([上下]午|AM|PM))?/i`. -/
def stdRE : RE :=
  reCat [.grp 1 (reCat [reD, reD, reD, reD]), reL '-',
    .grp 2 (reCat [reD, reD]), reL '-', .grp 3 (reCat [reD, reD]),
    reTSepI, .grp 4 reD12, reL ':', .grp 5 (reCat [reD, reD]),
    .opt (reCat [reL ':', .grp 6 (reCat [reD, reD])]),
    .opt (reCat [.starCh isJsSpace, .grp 7 reAmPm])]

/-- Grammar 4 of `parsePublishDate` (src/scraper.js:550), no `i` flag:
`/(\d{4})-(\d{2})-(\d{2})(?:[T\s](\d{2}):(\d{2})(?::(\d{2}))?)?/`. -/
def fallbackRE : RE :=
  reCat [.grp 1 (reCat [reD, reD, reD, reD]), reL '-',
    .grp 2 (reCat [reD, reD]), reL '-', .grp 3 (reCat [reD, reD]),
    .opt (reCat [.ch (fun c => c == 'T' || isJsSpace c),
      .grp 4 (reCat [reD, reD]), reL ':', .grp 5 (reCat [reD, reD]),
      .opt (reCat [reL ':', .grp 6 (reCat [reD, reD])])])]

/-! ## Proleptic-Gregorian calendar and epoch milliseconds

ECMAScript `MakeDay`/`MakeDate` arithmetic.  Years are shifted by +400 so the
day-count computation stays in `Nat` (400 Gregorian years are exactly 146097
days); the shift is subtracted at the end. -/

/-- Days since the Unix epoch of a civil date (ES `MakeDay`, divided by
`msPerDay`).  `d` may exceed the month length (up to the parser's bound 31):
the arithmetic rolls it into the next month, as `MakeDay` does.  Only called
with `1 ≤ m ≤ 12` and `1 ≤ d`. -/
def daysFromCivil (y m d : Nat) : Int :=
  let ys : Nat := if m ≤ 2 then y + 399 else y + 400
  let era := ys / 400
  let yoe := ys % 400
  let mp := (m + 9) % 12
  let doy := (153 * mp + 2) / 5 + d - 1
  let doe := yoe * 365 + yoe / 4 - yoe / 100 + doy
  (era * 146097 + doe : Int) - 865565

/-- Civil date from days since the Unix epoch (inverse of `daysFromCivil`;
ES `YearFromTime`/`MonthFromTime`/`DateFromTime`).  Total on `Int`; correct
on the range reachable from 4-digit-year parses. -/
def civilFromDays (z : Int) : Int × Nat × Nat :=
  let zn : Nat := (z + 865565).toNat
  let era := zn / 146097
  let doe := zn % 146097
  let yoe := (doe - doe / 1460 + doe / 36524 - doe / 146096) / 365
  let y := yoe + era * 400
  let doy := doe - (365 * yoe + yoe / 4 - yoe / 100)
  let mp := (5 * doy + 2) / 153
  let dd := doy - (153 * mp + 2) / 5 + 1
  let mo := if mp < 10 then mp + 3 else mp - 9
  (((if mo ≤ 2 then y + 1 else y) : Int) - 400, mo, dd)

/-- Rendering `Date.prototype.toISOString`: render epoch milliseconds as
`YYYY-MM-DDTHH:mm:ss.sssZ` (with the ES expanded-year forms `+YYYYYY` /
`-YYYYYY` outside 0-9999). -/
def toISOString (ms : Int) : String :=
  let day := ms / 86400000
  let rem := (ms % 86400000).toNat
  let c := civilFromDays day
  let y := c.1
  let ystr :=
    if y < 0 then '-' :: padN 6 (-y).toNat
    else if y ≤ 9999 then padN 4 y.toNat
    else '+' :: padN 6 y.toNat
  String.mk (ystr ++ '-' :: padN 2 c.2.1 ++ '-' :: padN 2 c.2.2 ++
    'T' :: padN 2 (rem / 3600000) ++ ':' :: padN 2 (rem % 3600000 / 60000) ++
    ':' :: padN 2 (rem % 60000 / 1000) ++ '.' :: padN 3 (rem % 1000) ++ ['Z'])

/-! ## `new Date(isoLike)` -/

/-- Read one ASCII digit. -/
def readDigit (s : List Char) : Option (Nat × List Char) :=
  match s with
  | c :: r => if c.isDigit then some (c.toNat - 48, r) else none
  | [] => none

/-- Read exactly two digits. -/
def read2 (s : List Char) : Option (Nat × List Char) := do
  let (a, s) ← readDigit s
  let (b, s) ← readDigit s
  some (10 * a + b, s)

/-- Read exactly three digits. -/
def read3 (s : List Char) : Option (Nat × List Char) := do
  let (a, s) ← read2 s
  let (b, s) ← readDigit s
  some (10 * a + b, s)

/-- Read exactly four digits. -/
def read4 (s : List Char) : Option (Nat × List Char) := do
  let (a, s) ← read2 s
  let (b, s) ← read2 s
  some (100 * a + b, s)

/-- Expect a given character. -/
def expectCh (c : Char) (s : List Char) : Option (List Char) :=
  match s with
  | x :: r => if x == c then some r else none
  | [] => none

/-- The fields of an ES date-time string. -/
structure EsFields where
  y : Nat
  mo : Nat
  d : Nat
  h : Nat
  mi : Nat
  sec : Nat
  frac : Nat
  offMin : Int
deriving DecidableEq

/-- Syntax phase of `new Date(isoLike)` after the four year digits:
`-MM-DD` + `T`/`t` + `HH:mm`, optional `:ss`, optional `.sss`, then
`Z`/`z` or `±hh:mm` (V8 also accepts the lowercase separators), with
nothing after the offset. -/
def parseEsAfterYear (y : Nat) (s : List Char) : Option EsFields := do
  let s ← expectCh '-' s
  let (mo, s) ← read2 s
  let s ← expectCh '-' s
  let (d, s) ← read2 s
  let s ← match s with
    | c :: r => if c == 'T' || c == 't' then some r else none
    | [] => none
  let (h, s) ← read2 s
  let s ← expectCh ':' s
  let (mi, s) ← read2 s
  let (sec, frac, s) ←
    match s with
    | ':' :: r => do
      let (sec, s) ← read2 r
      match s with
      | '.' :: r2 => do
        let (f, s2) ← read3 r2
        some (sec, f, s2)
      | _ => some (sec, 0, s)
    | _ => some (0, 0, s)
  let (offMin, s) ← (do
    match s with
    | 'Z' :: r => some ((0 : Int), r)
    | 'z' :: r => some ((0 : Int), r)
    | '+' :: r => do
      let (oh, s) ← read2 r
      let s ← expectCh ':' s
      let (om, s) ← read2 s
      if oh ≤ 23 && om ≤ 59 then some (((oh * 60 + om : Nat) : Int), s) else none
    | '-' :: r => do
      let (oh, s) ← read2 r
      let s ← expectCh ':' s
      let (om, s) ← read2 s
      if oh ≤ 23 && om ≤ 59 then some ((-((oh * 60 + om : Nat) : Int)), s) else none
    | _ => none)
  match s with
  | [] => some ⟨y, mo, d, h, mi, sec, frac, offMin⟩
  | _ => none

/-- Syntax phase of `new Date(isoLike)`: four year digits, then the rest. -/
def parseEsFields (s : List Char) : Option EsFields := do
  let (y, s) ← read4 s
  parseEsAfterYear y s

/-- Semantic phase of `new Date(isoLike)`: range-validate the fields and
compute the epoch milliseconds.  The checks on `y`, `frac` and `offMin` are
always true for fields produced by `parseEsFields` (four/three/two-digit
reads and the offset guard); they are restated here so a validated instant
is self-contained. -/
def instantOfFields (f : EsFields) : Option Int :=
  if f.y ≤ 9999 ∧ 1 ≤ f.mo ∧ f.mo ≤ 12 ∧ 1 ≤ f.d ∧ f.d ≤ 31 ∧ f.h ≤ 24 ∧
      f.mi ≤ 59 ∧ f.sec ≤ 59 ∧ f.frac ≤ 999 ∧ -1439 ≤ f.offMin ∧ f.offMin ≤ 1439 then
    some (86400000 * daysFromCivil f.y f.mo f.d +
      (3600000 * f.h + 60000 * f.mi + 1000 * f.sec + f.frac : Nat) - 60000 * f.offMin)
  else none

/-- Semantics of `new Date(isoLike).getTime()`: `none` for a non-conformant string or
out-of-range fields (then `isNaN(d.getTime())` holds and the scraper falls
through to the next grammar). -/
def v8ParseIso (s : List Char) : Option Int := (parseEsFields s).bind instantOfFields

/-! ## `parsePublishDate` (src/scraper.js:498-561) -/

/-- Preprocessing of `parsePublishDate`: trim, strip the boilerplate labels,
collapse whitespace runs to single spaces. -/
def preprocessDate (s : List Char) : List Char :=
  collapseWs (stripLabels (jsTrim s))

/-- Transform `isoLike.replace(' ', 'T')`: replace the first space. -/
def replFirstSpace : List Char → List Char
  | [] => []
  | c :: r => if c == ' ' then 'T' :: r else c :: replFirstSpace r

/-- Transform `isoLike.replace(/([+-]\d{2})(\d{2})$/, '$1:$2')`: insert a colon into a
trailing colonless offset. -/
def fixOffsetColon (s : List Char) : List Char :=
  match s.reverse with
  | b :: a :: y :: x :: sgn :: rest =>
    if (sgn == '+' || sgn == '-') && x.isDigit && y.isDigit && a.isDigit && b.isDigit then
      rest.reverse ++ [sgn, x, y, ':', a, b]
    else s
  | _ => s

/-- Test `/(下午|PM)/i.test(ampm)`. -/
def testPM (am : List Char) : Bool :=
  containsSub ['下', '午'] am || containsSubCI ['P', 'M'] am

/-- Test `/(上午|AM)/i.test(ampm)`. -/
def testAM (am : List Char) : Bool :=
  containsSub ['上', '午'] am || containsSubCI ['A', 'M'] am

/-- The sequential 12-hour fix-up of grammars 2 and 3:
`if PM && h < 12 then h += 12; if AM && h == 12 then h = 0`. -/
def fixup12 (am : List Char) (h : Nat) : Nat :=
  let h1 := if testPM am && h < 12 then h + 12 else h
  if testAM am && h1 == 12 then 0 else h1

/-- Grammar 1: search for a timezone-qualified ISO substring, normalise its
separator and offset punctuation, parse it; epoch ms on success. -/
def branch1 (t : List Char) : Option Int := do
  let caps ← searchRE isoTzRE t
  let m0 ← capGet caps 0
  v8ParseIso (fixOffsetColon (replFirstSpace m0))

/-- Grammar 2 (Chinese calendar form): `cy` is `new Date().getFullYear()`.
The captured fields are combined into the template
`${y}-${m}-${d}T${h}:${mm}:${ss}+08:00` exactly as the source does
(month/day/minute/second re-rendered via `parseInt` + `padStart`), and that
template is handed to `new Date`. -/
def branch2 (cy : Nat) (t : List Char) : Option Int := do
  let caps ← searchRE cnRE t
  let yStr := (capGet caps 1).getD (natChars cy)
  let mo := natOfDigits ((capGet caps 2).getD ['0'])
  let da := natOfDigits ((capGet caps 3).getD ['0'])
  let am := (capGet caps 4).getD []
  let h := fixup12 am (natOfDigits ((capGet caps 5).getD ['0']))
  let mi := natOfDigits ((capGet caps 6).getD ['0'])
  let ss := natOfDigits ((capGet caps 7).getD ['0'])
  v8ParseIso (yStr ++ '-' :: padN 2 mo ++ '-' :: padN 2 da ++
    'T' :: padN 2 h ++ ':' :: padN 2 mi ++ ':' :: padN 2 ss ++ ['+', '0', '8', ':', '0', '0'])

/-- Grammar 3 (standard form, UTC+08:00 assumed): year/month/day and
minute/second are spliced into the template verbatim; the hour goes through
`parseInt`, the 12-hour fix-up and `padStart(2, '0')`. -/
def branch3 (t : List Char) : Option Int := do
  let caps ← searchRE stdRE t
  let y := (capGet caps 1).getD []
  let mo := (capGet caps 2).getD []
  let da := (capGet caps 3).getD []
  let am := (capGet caps 7).getD []
  let h := fixup12 am (natOfDigits ((capGet caps 4).getD ['0']))
  let mi := (capGet caps 5).getD []
  let ss := (capGet caps 6).getD ['0', '0']
  v8ParseIso (y ++ '-' :: mo ++ '-' :: da ++
    'T' :: padN 2 h ++ ':' :: mi ++ ':' :: ss ++ ['+', '0', '8', ':', '0', '0'])

/-- Grammar 4 (bare fallback, UTC+08:00 assumed): all captured fields are
spliced verbatim, missing time fields default to `'00'`. -/
def branch4 (t : List Char) : Option Int := do
  let caps ← searchRE fallbackRE t
  let y := (capGet caps 1).getD []
  let mo := (capGet caps 2).getD []
  let da := (capGet caps 3).getD []
  let h := (capGet caps 4).getD ['0', '0']
  let mi := (capGet caps 5).getD ['0', '0']
  let ss := (capGet caps 6).getD ['0', '0']
  v8ParseIso (y ++ '-' :: mo ++ '-' :: da ++ 'T' :: h ++ ':' :: mi ++ ':' :: ss ++
    ['+', '0', '8', ':', '0', '0'])

/-- Embedding of `parsePublishDate` (src/scraper.js:498-561): preprocess, then try the
four grammars in order; the first one that yields a valid instant wins and
is rendered with `toISOString`; otherwise the empty string.  `cy` stands for
`new Date().getFullYear()`.  The function is total (the JS body's
`try/catch` can in fact never fire: nothing in it throws). -/
def parsePublishDate (cy : Nat) (dateText : String) : String :=
  if dateText.data.isEmpty then ""
  else
    let t := preprocessDate dateText.data
    match branch1 t <|> branch2 cy t <|> branch3 t <|> branch4 t with
    | some ms => toISOString ms
    | none => ""


/-! ## The DOM fragment model and `fixLazyImages` (src/scraper.js:568-607)

The content root returned by cheerio is modelled as a concrete tree of
elements with ordered attribute lists (cheerio preserves source attribute
order, and `$img.attr()` enumerates attributes in that order). -/

/-- A parsed DOM node: an element with tag, ordered attributes and children,
or a text node. -/
inductive DomNode where
  | elem (tag : String) (attrs : List (String × String)) (children : List DomNode)
  | text (s : String)

/-- Query `$node.attr(k)`: the value of attribute `k`, `none` = `undefined`. -/
def getAttr : List (String × String) → String → Option String
  | [], _ => none
  | p :: rest, k => if p.1 = k then some p.2 else getAttr rest k

/-- Update `$node.attr(k, v)`: update the value of attribute `k` in place,
preserving attribute order.  (The source only ever sets `src` when the
attribute is already present, so no append case is needed.) -/
def setAttr : List (String × String) → String → String → List (String × String)
  | [], _, _ => []
  | p :: rest, k, v => (if p.1 = k then (k, v) else p) :: setAttr rest k v

/-- Test `a.startsWith(b)` (JS `String.prototype.startsWith`). -/
def strStarts (s pat : String) : Bool := isPfxBy (fun a b => a == b) pat.data s.data

/-- The lazy-load candidate chain
`$img.attr('data-src') || $img.attr('data-original') || $img.attr('data-lazy-src')`
followed by `if (realSrc)`: the first present and non-empty value (JS `||`
skips both `undefined` and `''`, and a final falsy value fails the `if`). -/
def realSrcOf (attrs : List (String × String)) : Option String :=
  match getAttr attrs "data-src" with
  | some v => if v ≠ "" then some v else
    match getAttr attrs "data-original" with
    | some v2 => if v2 ≠ "" then some v2 else
      match getAttr attrs "data-lazy-src" with
      | some v3 => if v3 ≠ "" then some v3 else none
      | none => none
    | none =>
      match getAttr attrs "data-lazy-src" with
      | some v3 => if v3 ≠ "" then some v3 else none
      | none => none
  | none =>
    match getAttr attrs "data-original" with
    | some v2 => if v2 ≠ "" then some v2 else
      match getAttr attrs "data-lazy-src" with
      | some v3 => if v3 ≠ "" then some v3 else none
      | none => none
    | none =>
      match getAttr attrs "data-lazy-src" with
      | some v3 => if v3 ≠ "" then some v3 else none
      | none => none

/-- The fallback scan of `fixLazyImages`: iterate `Object.keys($img.attr())`
in attribute order and take the first attribute whose name starts with
`data-` and whose value starts with `http`. -/
def scanDataAttr : List (String × String) → Option (String × String)
  | [] => none
  | p :: rest =>
    if strStarts p.1 "data-" && strStarts p.2 "http" then some p else scanDataAttr rest

/-- The SVG-placeholder test `src.includes('data:image/svg+xml')` on
`$img.attr('src') || ''`. -/
def srcIsPlaceholder (attrs : List (String × String)) : Bool :=
  containsSub "data:image/svg+xml".data ((getAttr attrs "src").getD "").data

/-- The per-image body of `fixLazyImages`: if the current `src` is an SVG
placeholder, replace it with the first lazy-load candidate, else with the
first scanned `data-*`/`http` value, else leave the element unmodified.
(The repaired-image counter of the source is diagnostic logging only and is
not part of the document state.) -/
def fixImg (attrs : List (String × String)) : List (String × String) :=
  if srcIsPlaceholder attrs then
    match realSrcOf attrs with
    | some v => setAttr attrs "src" v
    | none =>
      match scanDataAttr attrs with
      | some p => setAttr attrs "src" p.2
      | none => attrs
  else attrs

mutual

/-- Apply the image repair to a node and all of its descendants. -/
def fixSubtree : DomNode → DomNode
  | .text s => .text s
  | .elem t a cs => .elem t (if t == "img" then fixImg a else a) (fixForest cs)

/-- Apply the image repair to every node of a forest. -/
def fixForest : List DomNode → List DomNode
  | [] => []
  | n :: ns => fixSubtree n :: fixForest ns

end

/-- Embedding of `fixLazyImages` (src/scraper.js:568-607): `articleContent.find('img')`
selects the `img` *descendants* of the content root (not the root itself)
and rewrites the `src` of each placeholder image in place. -/
def fixLazyImages : DomNode → DomNode
  | .text s => .text s
  | .elem t a cs => .elem t a (fixForest cs)

/-! ## Metadata extraction and content processing
(src/scraper.js:397-491)

The cheerio instance `$` is modelled at the query boundary: `PageDoc`
records, for each selector the code queries, the text (for element queries;
`.text()` of a selector that matches nothing is `''`) or the attribute value
(`none` = `undefined` for a missing meta tag), plus the two candidate
content roots. -/

/-- The page as seen through the cheerio queries of the source. -/
structure PageDoc where
  activityNameText : String
  richMediaTitleText : String
  ogTitleContent : Option String
  titleText : String
  jsNameText : String
  richMediaNicknameText : String
  authorMetaContent : Option String
  ogArticleAuthorContent : Option String
  publishTimeText : String
  richMediaMetaTextText : String
  articlePublishedTimeContent : Option String
  jsContent : Option DomNode
  richMediaContent : Option DomNode

/-- JS `a || b` on strings: `b` if `a` is falsy (empty), else `a`. -/
def jsOr (a b : String) : String := if a = "" then b else a

/-- The metadata record (adapted to the Readwise Reader API shape). -/
structure ArticleMetadata where
  title : String
  author : String
  published_date : String
  saved_using : String
deriving DecidableEq

/-- Trim `String.prototype.trim` on a `String`. -/
def strTrim (s : String) : String := String.mk (jsTrim s.data)

/-- Embedding of `extractMetadata` (src/scraper.js:451-491): each field is the first
truthy candidate of its fallback chain (element texts are trimmed, meta
attribute values are used as-is, a missing meta is `undefined`); the raw
publish-date text is handed to `parsePublishDate` only when non-empty. -/
def extractMetadata (cy : Nat) (doc : PageDoc) : ArticleMetadata :=
  let title := jsOr (strTrim doc.activityNameText)
    (jsOr (strTrim doc.richMediaTitleText)
      (jsOr (doc.ogTitleContent.getD "") (jsOr (strTrim doc.titleText) "")))
  let author := jsOr (strTrim doc.jsNameText)
    (jsOr (strTrim doc.richMediaNicknameText)
      (jsOr (doc.authorMetaContent.getD "")
        (jsOr (doc.ogArticleAuthorContent.getD "") "")))
  let publishDateText := jsOr (strTrim doc.publishTimeText)
    (jsOr (strTrim doc.richMediaMetaTextText)
      (jsOr (doc.articlePublishedTimeContent.getD "") ""))
  { title := title
    author := author
    published_date := if publishDateText ≠ "" then parsePublishDate cy publishDateText else ""
    saved_using := "wechat-scraper-mcp" }

/-- Attribute rendering for the serialiser. -/
def attrsStr (a : List (String × String)) : String :=
  (a.map (fun p => " " ++ p.1 ++ "=\x22" ++ p.2 ++ "\x22")).foldl (fun x y => x ++ y) ""

mutual

/-- Serialisation of one DOM node (the exact escaping rules of cheerio are
irrelevant to every claim, a structural rendering is used). -/
def renderNode : DomNode → String
  | .text s => s
  | .elem t a cs => "<" ++ t ++ attrsStr a ++ ">" ++ renderForest cs ++ "</" ++ t ++ ">"

/-- Serialisation of a DOM forest. -/
def renderForest : List DomNode → String
  | [] => ""
  | n :: rest => renderNode n ++ renderForest rest

end

/-- Query `articleContent.html()`: the inner HTML of the content root. -/
def innerHtml : DomNode → String
  | .text s => s
  | .elem _ _ cs => renderForest cs

/-- The `data` part of a result: present keys only for requested formats. -/
structure ArticleData where
  html : Option String
  markdown : Option String
deriving DecidableEq

/-- The assembled result of one successful extraction. -/
structure ArticleRecord where
  status : String
  url : String
  timestamp : String
  metadata : ArticleMetadata
  data : ArticleData
deriving DecidableEq

/-- The ambient state of a `WeChatArticleScraper` instance that the pure
pipeline reads: the clock (`new Date().getFullYear()` for year-omitted
dates, `new Date().toISOString()` for the record timestamp) and the opaque
`turndownService.turndown` converter. -/
structure Scraper where
  currentYear : Nat
  nowIso : String
  turndown : String → String

/-- Embedding of `processHtmlContent` (src/scraper.js:397-444): extract metadata, select
the content root (`#js_content`, falling back to `.rich_media_content`),
return `null` when neither matches, repair lazy images, then assemble the
record with exactly the requested formats. -/
def processHtmlContent (S : Scraper) (doc : PageDoc) (url : String)
    (formats : List String) : Option ArticleRecord :=
  let metadata := extractMetadata S.currentYear doc
  match doc.jsContent <|> doc.richMediaContent with
  | none => none
  | some root =>
    let root := fixLazyImages root
    some { status := "completed"
           url := url
           timestamp := S.nowIso
           metadata := metadata
           data :=
             { html := if formats.contains "html" then some (innerHtml root) else none
               markdown := if formats.contains "markdown" then
                 some (S.turndown (innerHtml root)) else none } }

/-! ## Session orchestration (src/scraper.js:91-213 and 221-388)

One *attempt* is one `Puppeteer.connect` → navigate → extract → close cycle.
The behaviour of the remote collaborators during one attempt is an oracle: -/

/-- External behaviour of one attempt.  `connectErr`: `Puppeteer.connect`
rejects.  `navErrs`: the errors of the successive `page.goto` tries (three
or more means the internal retry loop exhausts and throws the third).
`doc`: the parsed page content on navigation success.  `closeErr`: the
in-``try`` `browser.close()` rejects.  `cleanupCloseErr`: the
`browser.close()` inside the `catch` handler rejects (always swallowed). -/
structure AttemptEnv where
  connectErr : Option String
  navErrs : List String
  doc : PageDoc
  closeErr : Option String
  cleanupCloseErr : Option String

/-- Observable events of the orchestrator: the start of an attempt (carrying
the derived per-attempt session name) and each `browser.close()` call
(with whether it failed). -/
inductive Event where
  | attemptStart (sessionName : String)
  | closeTried (failed : Bool)
deriving DecidableEq

/-- One attempt (the shared body of `scrapeWithProxy` and of one iteration
of `scrapeArticle`'s proxy loop): connect, navigate with the internal
3-try loop, settle/scroll (no modelled failure points), take the content,
process it, close the browser.  A thrown error anywhere lands in the
`catch`, which closes the browser when non-null (swallowing the close
error) and yields `.error`.  Note the success-path `browser.close()` sits
*inside* the `try`: its failure turns the attempt into a failure even
though the record was already computed. -/
def oneAttempt (S : Scraper) (env : AttemptEnv) (sessionName url : String)
    (formats : List String) : Except String (Option ArticleRecord) × List Event :=
  match env.connectErr with
  | some e => (.error e, [.attemptStart sessionName])
  | none =>
    if h : 3 ≤ env.navErrs.length then
      (.error (env.navErrs.get ⟨2, by omega⟩),
        [.attemptStart sessionName, .closeTried env.cleanupCloseErr.isSome])
    else
      let result := processHtmlContent S env.doc url formats
      match env.closeErr with
      | none => (.ok result, [.attemptStart sessionName, .closeTried false])
      | some e =>
        (.error e, [.attemptStart sessionName, .closeTried true,
          .closeTried env.cleanupCloseErr.isSome])

/-- Embedding of `scrapeWithProxy` (src/scraper.js:91-213): a single attempt under the
custom proxy, session name `` `${sessionName}_custom_proxy` ``; any failure
is rethrown to the caller. -/
def scrapeWithProxy (S : Scraper) (env : AttemptEnv) (sessionName url : String)
    (formats : List String) : Except String (Option ArticleRecord) × List Event :=
  oneAttempt S env (sessionName ++ "_custom_proxy") url formats

/-- The per-attempt session name of the proxy loop:
`` `${sessionName}_${currentProxy}_${proxyIndex}` ``. -/
def proxySessionName (base proxy : String) (i : Nat) : String :=
  base ++ "_" ++ proxy ++ "_" ++ String.mk (natChars i)

/-- The generic error of src/scraper.js:387 thrown when no error was
captured. -/
def allFailedMsg : String := "抓取失败：所有代理尝试均失败"

/-- The proxy retry loop of `scrapeArticle` (src/scraper.js:248-388):
iterate the remaining candidates (the attempt of global index `i` draws its
external behaviour from `envs i`), return the first attempt that completes,
remember the last error, and after exhaustion throw the last error (or the
generic message when none was captured). -/
def retryLoop (S : Scraper) (envs : Nat → AttemptEnv) (base url : String)
    (formats : List String) :
    List String → Nat → Option String → Except String (Option ArticleRecord) × List Event
  | [], _, lastErr => (.error (lastErr.getD allFailedMsg), [])
  | proxy :: rest, i, _ =>
    match oneAttempt S (envs i) (proxySessionName base proxy i) url formats with
    | (.ok r, evs) => (.ok r, evs)
    | (.error e, evs) =>
      let next := retryLoop S envs base url formats rest (i + 1) (some e)
      (next.1, evs ++ next.2)

/-- The options of `scrapeArticle` (destructured with defaults at
src/scraper.js:222-230; `sessionTTL`, `proxyCountry` and `sessionRecording`
only flow into the opaque session provider and are omitted). -/
structure FetchOptions where
  sessionName : String
  formats : List String := ["markdown", "html"]
  proxyRetries : List String := ["CN", "HK", "SG"]
  proxyURL : Option String := none

/-- Embedding of `scrapeArticle` (src/scraper.js:221-388): with a custom `proxyURL`, a
single `scrapeWithProxy` attempt whose failure propagates; otherwise the
proxy retry loop over `proxyRetries`. -/
def scrapeArticle (S : Scraper) (envs : Nat → AttemptEnv) (url : String)
    (opts : FetchOptions) : Except String (Option ArticleRecord) × List Event :=
  match opts.proxyURL with
  | some _ => scrapeWithProxy S (envs 0) opts.sessionName url opts.formats
  | none => retryLoop S envs opts.sessionName url opts.formats opts.proxyRetries 0 none

/-! ## Lemmas about attribute lists and the image repair -/

theorem getAttr_setAttr_ne (a : List (String × String)) (k k' v : String)
    (h : k ≠ k') : getAttr (setAttr a k' v) k = getAttr a k := by
  induction a with
  | nil => rfl
  | cons p rest ih =>
    by_cases hp : p.1 = k'
    · simp only [setAttr, getAttr, if_pos hp, if_neg (Ne.symm h), ih]
      rw [if_neg (by rw [hp]; exact Ne.symm h)]
    · simp only [setAttr, getAttr, if_neg hp, ih]

theorem getAttr_setAttr_self (a : List (String × String)) (k v w : String)
    (h : getAttr a k = some w) : getAttr (setAttr a k v) k = some v := by
  induction a with
  | nil => simp [getAttr] at h
  | cons p rest ih =>
    by_cases hp : p.1 = k
    · simp only [setAttr, getAttr, if_pos hp]
      simp
    · rw [getAttr, if_neg hp] at h
      simp only [setAttr, getAttr, if_neg hp, ih h]

theorem setAttr_setAttr (a : List (String × String)) (k v v' : String) :
    setAttr (setAttr a k v') k v = setAttr a k v := by
  induction a with
  | nil => rfl
  | cons p rest ih =>
    by_cases hp : p.1 = k
    · simp only [setAttr, if_pos hp, ih]
      simp
    · simp only [setAttr, if_neg hp, ih]

theorem scanDataAttr_setAttr_src (a : List (String × String)) (v : String) :
    scanDataAttr (setAttr a "src" v) = scanDataAttr a := by
  induction a with
  | nil => rfl
  | cons p rest ih =>
    by_cases hp : p.1 = "src"
    · have h1 : strStarts "src" "data-" = false := by decide
      simp only [setAttr, if_pos hp, scanDataAttr]
      rw [if_neg (by simp [h1]), if_neg (by rw [hp]; simp [h1]), ih]
    · simp only [setAttr, if_neg hp, scanDataAttr, ih]

theorem realSrcOf_setAttr_src (a : List (String × String)) (v : String) :
    realSrcOf (setAttr a "src" v) = realSrcOf a := by
  have h1 := getAttr_setAttr_ne a "data-src" "src" v (by decide)
  have h2 := getAttr_setAttr_ne a "data-original" "src" v (by decide)
  have h3 := getAttr_setAttr_ne a "data-lazy-src" "src" v (by decide)
  simp only [realSrcOf, h1, h2, h3]

theorem srcIsPlaceholder_some_src (a : List (String × String))
    (h : srcIsPlaceholder a = true) : ∃ s, getAttr a "src" = some s := by
  cases hs : getAttr a "src" with
  | some s => exact ⟨s, rfl⟩
  | none =>
    exfalso
    rw [srcIsPlaceholder, hs] at h
    simp at h
    exact absurd h (by decide)

theorem srcIsPlaceholder_setAttr_src (a : List (String × String)) (v : String)
    (hsome : ∃ s, getAttr a "src" = some s) :
    srcIsPlaceholder (setAttr a "src" v) =
      containsSub "data:image/svg+xml".data v.data := by
  obtain ⟨s, hs⟩ := hsome
  rw [srcIsPlaceholder, getAttr_setAttr_self a "src" v s hs]
  rfl

/-- Core idempotence: applying the per-image repair twice equals applying it
once. -/
theorem fixImg_idem (a : List (String × String)) : fixImg (fixImg a) = fixImg a := by
  by_cases hp : srcIsPlaceholder a = true
  · have hsome := srcIsPlaceholder_some_src a hp
    cases hr : realSrcOf a with
    | some v =>
      have hfix : fixImg a = setAttr a "src" v := by rw [fixImg, if_pos hp, hr]
      rw [hfix]
      by_cases hv : containsSub "data:image/svg+xml".data v.data = true
      · rw [fixImg, if_pos (by rw [srcIsPlaceholder_setAttr_src a v hsome]; exact hv),
          realSrcOf_setAttr_src, hr]
        exact setAttr_setAttr a "src" v v
      · rw [fixImg, if_neg (by rw [srcIsPlaceholder_setAttr_src a v hsome]; simpa using hv)]
    | none =>
      cases hq : scanDataAttr a with
      | some p =>
        have hfix : fixImg a = setAttr a "src" p.2 := by rw [fixImg, if_pos hp, hr, hq]
        rw [hfix]
        by_cases hv : containsSub "data:image/svg+xml".data p.2.data = true
        · rw [fixImg, if_pos (by rw [srcIsPlaceholder_setAttr_src a p.2 hsome]; exact hv),
            realSrcOf_setAttr_src, hr, scanDataAttr_setAttr_src, hq]
          exact setAttr_setAttr a "src" p.2 p.2
        · rw [fixImg,
            if_neg (by rw [srcIsPlaceholder_setAttr_src a p.2 hsome]; simpa using hv)]
      | none =>
        have hfix : fixImg a = a := by rw [fixImg, if_pos hp, hr, hq]
        rw [hfix, fixImg, if_pos hp, hr, hq]
  · have hfix : fixImg a = a := by rw [fixImg, if_neg hp]
    rw [hfix, hfix]

mutual

/-- Idempotence of the whole-subtree repair. -/
theorem fixSubtree_idem : (n : DomNode) → fixSubtree (fixSubtree n) = fixSubtree n
  | .text _ => rfl
  | .elem t a cs => by
    rw [fixSubtree, fixSubtree]
    by_cases ht : t == "img"
    · simp only [ht, if_pos, fixImg_idem, fixForest_idem cs]
    · simp only [ht, Bool.false_eq_true, if_neg, fixForest_idem cs, if_false]

/-- Idempotence of the forest repair. -/
theorem fixForest_idem : (l : List DomNode) → fixForest (fixForest l) = fixForest l
  | [] => rfl
  | n :: ns => by rw [fixForest, fixForest, fixSubtree_idem n, fixForest_idem ns]

end

/-! ## Claim theorems: image repair -/

/-- C4: `fixLazyImages` is idempotent on document state: for every parsed
content root, repairing the already-repaired document leaves it identical
to the result of repairing once (the repaired-image count of the source is
diagnostic logging only and not part of the document state). -/
theorem fixLazyImages_idempotent (root : DomNode) :
    fixLazyImages (fixLazyImages root) = fixLazyImages root := by
  cases root with
  | text s => rfl
  | elem t a cs => rw [fixLazyImages, fixLazyImages, fixForest_idem cs]

/-- C10: the frame of `fixLazyImages`.  For the attribute list of any `img`:
an `img` whose `src` does not contain the SVG-placeholder marker is left
unchanged; every attribute other than `src` is left unchanged; the whole
effect is at most a rewrite of `src`; a placeholder `img` with no
lazy-load candidate and no scanned `data-*`/`http` attribute is left
entirely unmodified.  For the tree: non-`img` elements keep their tag and
attributes, and text nodes are untouched. -/
theorem fixLazyImages_frame (attrs : List (String × String)) :
    (srcIsPlaceholder attrs = false → fixImg attrs = attrs) ∧
    (∀ k, k ≠ "src" → getAttr (fixImg attrs) k = getAttr attrs k) ∧
    (fixImg attrs = attrs ∨ ∃ v, fixImg attrs = setAttr attrs "src" v) ∧
    (srcIsPlaceholder attrs = true → realSrcOf attrs = none → scanDataAttr attrs = none →
      fixImg attrs = attrs) ∧
    (∀ t a cs, t ≠ "img" → fixSubtree (.elem t a cs) = .elem t a (fixForest cs)) ∧
    (∀ s, fixSubtree (.text s) = .text s) := by
  have hcases : fixImg attrs = attrs ∨ ∃ v, fixImg attrs = setAttr attrs "src" v := by
    by_cases hp : srcIsPlaceholder attrs = true
    · cases hr : realSrcOf attrs with
      | some v => exact Or.inr ⟨v, by rw [fixImg, if_pos hp, hr]⟩
      | none =>
        cases hq : scanDataAttr attrs with
        | some p => exact Or.inr ⟨p.2, by rw [fixImg, if_pos hp, hr, hq]⟩
        | none => exact Or.inl (by rw [fixImg, if_pos hp, hr, hq])
    · exact Or.inl (by rw [fixImg, if_neg hp])
  refine ⟨fun hp => by rw [fixImg, hp]; simp, ?_, hcases, ?_, ?_, fun s => rfl⟩
  · intro k hk
    rcases hcases with h | ⟨v, h⟩
    · rw [h]
    · rw [h, getAttr_setAttr_ne attrs k "src" v hk]
  · intro hp hr hq
    rw [fixImg, if_pos hp, hr, hq]
  · intro t a cs ht
    rw [fixSubtree, if_neg (by simpa using ht)]

/-- Witness for C10 at a concrete image: an `img` whose `src` is a real URL
(no placeholder marker) is left unchanged. -/
theorem fixLazyImages_frame_witness :
    fixImg [("src", "https://example.com/a.png"), ("data-src", "https://other")] =
      [("src", "https://example.com/a.png"), ("data-src", "https://other")] :=
  (fixLazyImages_frame
    [("src", "https://example.com/a.png"), ("data-src", "https://other")]).1 (by decide)

/-! ## Claim theorems: content extraction -/

/-- C8: when neither `#js_content` nor `.rich_media_content` matches,
`processHtmlContent` returns `null` (embedded as `none`; the function is
total, so no exception escapes). -/
theorem processHtmlContent_null (S : Scraper) (doc : PageDoc) (url : String)
    (formats : List String) (h1 : doc.jsContent = none)
    (h2 : doc.richMediaContent = none) :
    processHtmlContent S doc url formats = none := by
  rw [processHtmlContent, h1, h2]
  rfl

/-- A page with no matching selectors at all. -/
def emptyDoc : PageDoc :=
  { activityNameText := "", richMediaTitleText := "", ogTitleContent := none,
    titleText := "", jsNameText := "", richMediaNicknameText := "",
    authorMetaContent := none, ogArticleAuthorContent := none,
    publishTimeText := "", richMediaMetaTextText := "",
    articlePublishedTimeContent := none, jsContent := none, richMediaContent := none }

/-- A concrete scraper state for witnesses. -/
def testScraper : Scraper :=
  { currentYear := 2025, nowIso := "2025-10-29T00:00:00.000Z", turndown := fun s => s }

/-- Witness for C8: a concrete page without content selectors yields `none`
for every requested format list. -/
theorem processHtmlContent_null_witness :
    processHtmlContent testScraper emptyDoc "https://example.com" ["markdown", "html"] = none :=
  processHtmlContent_null testScraper emptyDoc "https://example.com" ["markdown", "html"] rfl rfl

/-- The specification's fallback-chain evaluator: the first non-empty
candidate wins, and an exhausted chain yields the empty string. -/
def firstNonEmpty : List String → String
  | [] => ""
  | s :: rest => if s ≠ "" then s else firstNonEmpty rest

/-- C5: `extractMetadata` resolves title, author and the raw publish-date
text independently as the first non-empty candidate of its documented
chain (element texts trimmed, meta contents as-is, missing metas skipped),
and a field whose chain is exhausted is the empty string — the record type
makes `null`/absent fields unrepresentable. -/
theorem extractMetadata_chains (cy : Nat) (doc : PageDoc) :
    (extractMetadata cy doc).title =
      firstNonEmpty [strTrim doc.activityNameText, strTrim doc.richMediaTitleText,
        doc.ogTitleContent.getD "", strTrim doc.titleText] ∧
    (extractMetadata cy doc).author =
      firstNonEmpty [strTrim doc.jsNameText, strTrim doc.richMediaNicknameText,
        doc.authorMetaContent.getD "", doc.ogArticleAuthorContent.getD ""] ∧
    (extractMetadata cy doc).published_date =
      (if firstNonEmpty [strTrim doc.publishTimeText, strTrim doc.richMediaMetaTextText,
          doc.articlePublishedTimeContent.getD ""] ≠ "" then
        parsePublishDate cy (firstNonEmpty [strTrim doc.publishTimeText,
          strTrim doc.richMediaMetaTextText, doc.articlePublishedTimeContent.getD ""])
      else "") ∧
    (strTrim doc.activityNameText = "" → strTrim doc.richMediaTitleText = "" →
      doc.ogTitleContent.getD "" = "" → strTrim doc.titleText = "" →
      (extractMetadata cy doc).title = "") ∧
    (strTrim doc.jsNameText = "" → strTrim doc.richMediaNicknameText = "" →
      doc.authorMetaContent.getD "" = "" → doc.ogArticleAuthorContent.getD "" = "" →
      (extractMetadata cy doc).author = "") ∧
    (strTrim doc.publishTimeText = "" → strTrim doc.richMediaMetaTextText = "" →
      doc.articlePublishedTimeContent.getD "" = "" →
      (extractMetadata cy doc).published_date = "") := by
  have hchain : ∀ a b c d : String,
      jsOr a (jsOr b (jsOr c (jsOr d ""))) = firstNonEmpty [a, b, c, d] := by
    intro a b c d
    simp only [jsOr, firstNonEmpty]
    split_ifs <;> simp_all
  have hchain3 : ∀ a b c : String,
      jsOr a (jsOr b (jsOr c "")) = firstNonEmpty [a, b, c] := by
    intro a b c
    simp only [jsOr, firstNonEmpty]
    split_ifs <;> simp_all
  refine ⟨?_, ?_, ?_, ?_, ?_, ?_⟩
  · simp only [extractMetadata, hchain]
  · simp only [extractMetadata, hchain]
  · simp only [extractMetadata, hchain3]
  · intro h1 h2 h3 h4
    simp only [extractMetadata, hchain, firstNonEmpty, h1, h2, h3, h4]
    simp
  · intro h1 h2 h3 h4
    simp only [extractMetadata, hchain, firstNonEmpty, h1, h2, h3, h4]
    simp
  · intro h1 h2 h3
    simp only [extractMetadata, hchain3, firstNonEmpty, h1, h2, h3]
    simp

/-- A page whose title area is whitespace and whose author chain is empty. -/
def titleOnlyDoc : PageDoc :=
  { emptyDoc with activityNameText := " ", richMediaTitleText := "Hello" }

/-- Witness for C5 at a concrete page: the unresolved author chain yields
the empty string. -/
theorem extractMetadata_chains_witness :
    (extractMetadata 2025 titleOnlyDoc).author = "" :=
  (extractMetadata_chains 2025 titleOnlyDoc).2.2.2.2.1 rfl rfl rfl rfl

/-! ## Claim theorems: session orchestration -/

/-- The session names of the attempts started in a trace, in order. -/
def startNames : List Event → List String
  | [] => []
  | .attemptStart n :: r => n :: startNames r
  | .closeTried _ :: r => startNames r

/-- Is the event a `browser.close()` call? -/
def isCloseEv : Event → Bool
  | .closeTried _ => true
  | .attemptStart _ => false

theorem startNames_append (a b : List Event) :
    startNames (a ++ b) = startNames a ++ startNames b := by
  induction a with
  | nil => rfl
  | cons ev rest ih => cases ev <;> simp [startNames, ih]

theorem oneAttempt_startNames (S : Scraper) (env : AttemptEnv) (name url : String)
    (fm : List String) : startNames (oneAttempt S env name url fm).2 = [name] := by
  rw [oneAttempt]
  cases env.connectErr with
  | some e => rfl
  | none =>
    by_cases h : 3 ≤ env.navErrs.length
    · rw [dif_pos h]
      rfl
    · rw [dif_neg h]
      cases env.closeErr <;> rfl

theorem mapRangeSuccCons {α : Type} (g : Nat → α) (n : Nat) :
    (List.range (n + 1)).map g = g 0 :: (List.range n).map (fun j => g (j + 1)) := by
  rw [List.range_succ_eq_map, List.map_cons, List.map_map]
  rfl

/-- The proxy loop, started at global index `i0`, returns the value of the
first completing attempt, and the attempts made are exactly the candidates
up to and including it, in list order. -/
theorem retryLoop_first_ok (S : Scraper) (envs : Nat → AttemptEnv) (base url : String)
    (fm : List String) :
    ∀ (ps : List String) (i0 : Nat) (le : Option String) (k : Nat) (hk : k < ps.length)
      (r : Option ArticleRecord),
      (∀ j (hj : j < ps.length), j < k →
        ∃ e, (oneAttempt S (envs (i0 + j))
          (proxySessionName base (ps.get ⟨j, hj⟩) (i0 + j)) url fm).1 = .error e) →
      (oneAttempt S (envs (i0 + k))
        (proxySessionName base (ps.get ⟨k, hk⟩) (i0 + k)) url fm).1 = .ok r →
      (retryLoop S envs base url fm ps i0 le).1 = .ok r ∧
      startNames (retryLoop S envs base url fm ps i0 le).2 =
        ((List.range (k + 1)).map fun j => proxySessionName base (ps.getD j "") (i0 + j)) := by
  intro ps
  induction ps with
  | nil =>
    intro i0 le k hk r hfail hsucc
    exact absurd hk (by simp)
  | cons p rest ih =>
    intro i0 le k hk r hfail hsucc
    cases hA : oneAttempt S (envs i0) (proxySessionName base p i0) url fm with
    | mk res evs =>
      have hevs : startNames evs = [proxySessionName base p i0] := by
        have := oneAttempt_startNames S (envs i0) (proxySessionName base p i0) url fm
        rw [hA] at this
        exact this
      cases k with
      | zero =>
        have : res = .ok r := by
          have h0 := hsucc
          simp only [Nat.add_zero] at h0
          rw [show (p :: rest).get ⟨0, hk⟩ = p from rfl] at h0
          rw [hA] at h0
          exact h0
        subst this
        constructor
        · simp [retryLoop, hA]
        · simp only [retryLoop, hA]
          rw [hevs, show List.range 1 = [0] from rfl]
          rfl
      | succ k' =>
        obtain ⟨e, he⟩ := hfail 0 (by simp) (Nat.succ_pos k')
        have hres : res = .error e := by
          simp only [Nat.add_zero] at he
          rw [show (p :: rest).get ⟨0, by simp⟩ = p from rfl] at he
          rw [hA] at he
          exact he
        subst hres
        have hk' : k' < rest.length := by simpa using hk
        have ihres := ih (i0 + 1) (some e) k' hk' r
          (fun j hj hjk => by
            have := hfail (j + 1) (by simpa using Nat.succ_lt_succ hj) (Nat.succ_lt_succ hjk)
            rw [show (p :: rest).get ⟨j + 1, by simpa using Nat.succ_lt_succ hj⟩ =
              rest.get ⟨j, hj⟩ from rfl] at this
            rw [show i0 + (j + 1) = i0 + 1 + j from by omega] at this
            exact this)
          (by
            rw [show (p :: rest).get ⟨k' + 1, hk⟩ = rest.get ⟨k', hk'⟩ from rfl] at hsucc
            rw [show i0 + (k' + 1) = i0 + 1 + k' from by omega] at hsucc
            exact hsucc)
        constructor
        · simp only [retryLoop, hA]
          exact ihres.1
        · simp only [retryLoop, hA]
          rw [startNames_append, hevs, ihres.2]
          conv_rhs => rw [mapRangeSuccCons]
          refine congrArg₂ List.cons rfl ?_
          apply List.map_congr_left
          intro j _
          simp only [List.getD_cons_succ]
          rw [show i0 + (j + 1) = i0 + 1 + j from by omega]

/-- C6: with no custom proxy, `scrapeArticle` attempts the candidates of
`proxyRetries` strictly in list order and returns the value of the first
attempt that completes, trying no further candidate; with a custom
`proxyURL`, exactly one attempt is made via the custom-proxy path (its
session name is `sessionName_custom_proxy`), the contents of `proxyRetries`
are irrelevant, and a failure of that single attempt propagates directly. -/
theorem scrapeArticle_retry_policy (S : Scraper) (envs : Nat → AttemptEnv) (url : String)
    (opts : FetchOptions) :
    (∀ p, opts.proxyURL = some p →
      scrapeArticle S envs url opts =
        oneAttempt S (envs 0) (opts.sessionName ++ "_custom_proxy") url opts.formats ∧
      startNames (scrapeArticle S envs url opts).2 = [opts.sessionName ++ "_custom_proxy"] ∧
      (∀ rs, scrapeArticle S envs url { opts with proxyRetries := rs } =
        scrapeArticle S envs url opts) ∧
      (∀ e, (oneAttempt S (envs 0) (opts.sessionName ++ "_custom_proxy") url opts.formats).1 =
          .error e → (scrapeArticle S envs url opts).1 = .error e)) ∧
    (opts.proxyURL = none → ∀ (k : Nat) (hk : k < opts.proxyRetries.length) r,
      (∀ j (hj : j < opts.proxyRetries.length), j < k →
        ∃ e, (oneAttempt S (envs j)
          (proxySessionName opts.sessionName (opts.proxyRetries.get ⟨j, hj⟩) j)
          url opts.formats).1 = .error e) →
      (oneAttempt S (envs k)
        (proxySessionName opts.sessionName (opts.proxyRetries.get ⟨k, hk⟩) k)
        url opts.formats).1 = .ok r →
      (scrapeArticle S envs url opts).1 = .ok r ∧
      startNames (scrapeArticle S envs url opts).2 =
        ((List.range (k + 1)).map fun j =>
          proxySessionName opts.sessionName (opts.proxyRetries.getD j "") j)) := by
  constructor
  · intro p hp
    have heq : scrapeArticle S envs url opts =
        oneAttempt S (envs 0) (opts.sessionName ++ "_custom_proxy") url opts.formats := by
      rw [scrapeArticle, hp]
      rfl
    refine ⟨heq, ?_, ?_, ?_⟩
    · rw [heq, oneAttempt_startNames]
    · intro rs
      rw [heq, scrapeArticle]
      simp only [hp]
      rfl
    · intro e he
      rw [heq, he]
  · intro hp k hk r hfail hsucc
    have h0 : ∀ j, (0 : Nat) + j = j := fun j => Nat.zero_add j
    have := retryLoop_first_ok S envs opts.sessionName url opts.formats
      opts.proxyRetries 0 none k hk r
      (fun j hj hjk => by rw [h0 j]; exact hfail j hj hjk)
      (by rw [h0 k]; exact hsucc)
    rw [scrapeArticle, hp]
    constructor
    · exact this.1
    · rw [this.2]
      apply List.map_congr_left
      intro j _
      rw [h0 j]

/-- Witness for C6: one candidate, a successful attempt; the loop returns
that attempt's (empty-formats) record and started exactly one session. -/
def okDoc : PageDoc := { emptyDoc with jsContent := some (.elem "div" [] []) }

/-- An attempt environment in which everything succeeds. -/
def envOK : AttemptEnv :=
  { connectErr := none, navErrs := [], doc := okDoc, closeErr := none,
    cleanupCloseErr := none }

/-- The metadata extracted from an all-empty page. -/
def emptyMeta : ArticleMetadata :=
  { title := "", author := "", published_date := "", saved_using := "wechat-scraper-mcp" }

/-- The record produced from `okDoc` with no requested formats. -/
def okRec : ArticleRecord :=
  { status := "completed", url := "u", timestamp := testScraper.nowIso,
    metadata := emptyMeta, data := { html := none, markdown := none } }

/-- Options for the orchestration witnesses: one proxy candidate, no
formats, no custom proxy. -/
def oneProxyOpts : FetchOptions :=
  { sessionName := "s", formats := [], proxyRetries := ["CN"], proxyURL := none }

theorem scrapeArticle_retry_policy_witness :
    (scrapeArticle testScraper (fun _ => envOK) "u" oneProxyOpts).1 = .ok (some okRec) := by
  refine ((scrapeArticle_retry_policy testScraper (fun _ => envOK) "u" oneProxyOpts).2
    rfl 0 (by decide) (some okRec) ?_ ?_).1
  · intro j hj hjk
    exact absurd hjk (Nat.not_lt_zero j)
  · rfl

/-- The proxy loop under total failure: the result carries the error of the
last attempt (the loop's `lastError`). -/
theorem retryLoop_all_fail (S : Scraper) (envs : Nat → AttemptEnv) (base url : String)
    (fm : List String) (es : Nat → String) :
    ∀ (ps : List String) (i0 : Nat) (le : Option String),
      (∀ j (hj : j < ps.length), (oneAttempt S (envs (i0 + j))
        (proxySessionName base (ps.get ⟨j, hj⟩) (i0 + j)) url fm).1 = .error (es (i0 + j))) →
      (ps = [] → (retryLoop S envs base url fm ps i0 le).1 = .error (le.getD allFailedMsg)) ∧
      (ps ≠ [] → (retryLoop S envs base url fm ps i0 le).1 =
        .error (es (i0 + ps.length - 1))) := by
  intro ps
  induction ps with
  | nil =>
    intro i0 le _
    constructor
    · intro _
      rfl
    · intro h
      exact absurd rfl h
  | cons p rest ih =>
    intro i0 le hfail
    refine ⟨fun h => (nomatch h), fun _ => ?_⟩
    have h0 := hfail 0 (by simp)
    rw [show (p :: rest).get ⟨0, by simp⟩ = p from rfl, Nat.add_zero] at h0
    cases hA : oneAttempt S (envs i0) (proxySessionName base p i0) url fm with
    | mk res evs =>
      rw [hA] at h0
      simp only at h0
      subst h0
      have ihres := ih (i0 + 1) (some (es i0))
        (fun j hj => by
          have := hfail (j + 1) (by simpa using Nat.succ_lt_succ hj)
          rw [show (p :: rest).get ⟨j + 1, by simpa using Nat.succ_lt_succ hj⟩ =
            rest.get ⟨j, hj⟩ from rfl] at this
          rw [show i0 + (j + 1) = i0 + 1 + j from by omega] at this
          exact this)
      simp only [retryLoop, hA]
      cases rest with
      | nil =>
        have hidx : i0 + (p :: ([] : List String)).length - 1 = i0 := by simp
        rw [hidx]
        rfl
      | cons q qs =>
        have hres := ihres.2 (by simp)
        rw [hres]
        have hidx : i0 + 1 + (q :: qs).length - 1 = i0 + (p :: q :: qs).length - 1 := by
          simp only [List.length_cons]
          omega
        rw [hidx]

/-- C7: with no custom proxy, if every candidate's attempt fails then
`scrapeArticle` fails with the error of the last attempt; with an empty
`proxyRetries` no attempt is ever made (no session opened, empty trace) and
the generic all-attempts-failed error is thrown. -/
theorem scrapeArticle_all_fail (S : Scraper) (envs : Nat → AttemptEnv) (url : String)
    (opts : FetchOptions) (hp : opts.proxyURL = none) :
    (opts.proxyRetries = [] →
      scrapeArticle S envs url opts = (.error allFailedMsg, [])) ∧
    (∀ es : Nat → String,
      (∀ j (hj : j < opts.proxyRetries.length), (oneAttempt S (envs j)
        (proxySessionName opts.sessionName (opts.proxyRetries.get ⟨j, hj⟩) j)
        url opts.formats).1 = .error (es j)) →
      opts.proxyRetries ≠ [] →
      (scrapeArticle S envs url opts).1 = .error (es (opts.proxyRetries.length - 1))) := by
  constructor
  · intro h
    rw [scrapeArticle, hp, h]
    rfl
  · intro es hfail hne
    have := (retryLoop_all_fail S envs opts.sessionName url opts.formats es
      opts.proxyRetries 0 none
      (fun j hj => by rw [Nat.zero_add]; exact hfail j hj)).2 hne
    rw [scrapeArticle, hp]
    rw [this, Nat.zero_add]

/-- Witness for C7: two candidates, both attempts fail; the call fails with
the second attempt's error. -/
def envConnFail1 : AttemptEnv := { envOK with connectErr := some "boom1" }

/-- A second failing environment for the C7 witness. -/
def envConnFail2 : AttemptEnv := { envOK with connectErr := some "boom2" }

/-- Options with two proxy candidates for the C7 witness. -/
def twoProxyOpts : FetchOptions :=
  { sessionName := "s", formats := [], proxyRetries := ["CN", "HK"], proxyURL := none }

theorem scrapeArticle_all_fail_witness :
    (scrapeArticle testScraper
      (fun i => if i = 0 then envConnFail1 else envConnFail2) "u" twoProxyOpts).1 =
      .error "boom2" :=
  (scrapeArticle_all_fail testScraper
    (fun i => if i = 0 then envConnFail1 else envConnFail2) "u" twoProxyOpts rfl).2
    (fun i => if i = 0 then "boom1" else "boom2")
    (fun j hj => by
      rcases j with _ | _ | n
      · rfl
      · rfl
      · exfalso
        have hl : twoProxyOpts.proxyRetries.length = 2 := rfl
        omega)
    (by decide)

/-- The environment of the C9 counterexample: everything succeeds except the
success-path `browser.close()`, which rejects. -/
def envCloseFail : AttemptEnv := { envOK with closeErr := some "close failed" }

/-- Counterexample to C9: the success-path `browser.close()`
(src/scraper.js:352) sits inside the `try`.  With identical environments up
to the close outcome, the attempt that produced a record returns it when
the close succeeds, but when the close fails the record is discarded and
the close error becomes the outcome of the whole call — a session-close
failure does change the outcome of an attempt that otherwise produced a
record. -/
theorem closeFailure_changes_outcome :
    (scrapeArticle testScraper (fun _ => envOK) "u" oneProxyOpts).1 = .ok (some okRec) ∧
    (scrapeArticle testScraper (fun _ => envCloseFail) "u" oneProxyOpts).1 =
      .error "close failed" :=
  ⟨rfl, rfl⟩

/-- C9 as amended: whenever a session was opened (connect succeeded), a
`browser.close()` is attempted on every exit path of the attempt; a failure
of the `catch`-handler close is logged and swallowed and never changes the
attempt's outcome; but a failure of the *success-path* close escalates: it
becomes the error of an attempt that had already produced its record. -/
theorem oneAttempt_close_policy (S : Scraper) (env : AttemptEnv) (name url : String)
    (fm : List String) :
    (env.connectErr = none →
      (oneAttempt S env name url fm).2.filter isCloseEv ≠ []) ∧
    (∀ x, (oneAttempt S { env with cleanupCloseErr := x } name url fm).1 =
      (oneAttempt S env name url fm).1) ∧
    (env.connectErr = none → env.navErrs.length < 3 → ∀ e, env.closeErr = some e →
      (oneAttempt S env name url fm).1 = .error e) := by
  refine ⟨?_, ?_, ?_⟩
  · intro hc
    rw [oneAttempt, hc]
    by_cases h : 3 ≤ env.navErrs.length
    · rw [dif_pos h]
      simp [isCloseEv]
    · rw [dif_neg h]
      cases env.closeErr <;> simp [isCloseEv]
  · intro x
    rw [oneAttempt, oneAttempt]
    cases hc : env.connectErr with
    | some e => rfl
    | none =>
      by_cases h : 3 ≤ env.navErrs.length
      · rw [dif_pos h, dif_pos h]
      · rw [dif_neg h, dif_neg h]
        cases env.closeErr <;> rfl
  · intro hc hn e he
    rw [oneAttempt, hc, dif_neg (by omega), he]

/-- Witness for the amended C9 at a concrete environment: the success-path
close failure becomes the attempt error. -/
theorem oneAttempt_close_policy_witness :
    (oneAttempt testScraper envCloseFail "n" "u" []).1 = .error "close failed" :=
  (oneAttempt_close_policy testScraper envCloseFail "n" "u" []).2.2 rfl
    (by decide) "close failed" rfl

/-! ## Claim theorems: the date normaliser is total and well-formed -/

theorem daysFromCivil_bounds (y m d : Nat) (hy : y ≤ 9999) (hm : m ≤ 12) (hd : d ≤ 31) :
    -865565 ≤ daysFromCivil y m d ∧ daysFromCivil y m d ≤ 4000000 := by
  simp only [daysFromCivil]
  split <;> omega

theorem instantOfFields_bound (f : EsFields) (ms : Int)
    (h : instantOfFields f = some ms) :
    -8640000000000000 ≤ ms ∧ ms ≤ 8640000000000000 := by
  rw [instantOfFields] at h
  split at h
  · rename_i hv
    injection h with h
    subst h
    have hb := daysFromCivil_bounds f.y f.mo f.d hv.1 hv.2.2.1 hv.2.2.2.2.1
    omega
  · cases h

theorem v8ParseIso_bound (s : List Char) (ms : Int) (h : v8ParseIso s = some ms) :
    -8640000000000000 ≤ ms ∧ ms ≤ 8640000000000000 := by
  rw [v8ParseIso] at h
  cases hf : parseEsFields s with
  | none => rw [hf] at h; cases h
  | some f =>
    rw [hf] at h
    exact instantOfFields_bound f ms h

theorem branch1_from_parse (t : List Char) (ms : Int) (h : branch1 t = some ms) :
    ∃ s, v8ParseIso s = some ms := by
  rw [branch1] at h
  cases hs : searchRE isoTzRE t with
  | none => rw [hs] at h; cases h
  | some caps =>
    rw [hs] at h
    simp only [Option.bind_eq_bind, Option.some_bind] at h
    cases hm : capGet caps 0 with
    | none => rw [hm] at h; cases h
    | some m0 =>
      rw [hm] at h
      simp only [Option.some_bind] at h
      exact ⟨_, h⟩

theorem branch2_from_parse (cy : Nat) (t : List Char) (ms : Int)
    (h : branch2 cy t = some ms) : ∃ s, v8ParseIso s = some ms := by
  rw [branch2] at h
  cases hs : searchRE cnRE t with
  | none => rw [hs] at h; cases h
  | some caps =>
    rw [hs] at h
    simp only [Option.bind_eq_bind, Option.some_bind] at h
    exact ⟨_, h⟩

theorem branch3_from_parse (t : List Char) (ms : Int) (h : branch3 t = some ms) :
    ∃ s, v8ParseIso s = some ms := by
  rw [branch3] at h
  cases hs : searchRE stdRE t with
  | none => rw [hs] at h; cases h
  | some caps =>
    rw [hs] at h
    simp only [Option.bind_eq_bind, Option.some_bind] at h
    exact ⟨_, h⟩

theorem branch4_from_parse (t : List Char) (ms : Int) (h : branch4 t = some ms) :
    ∃ s, v8ParseIso s = some ms := by
  rw [branch4] at h
  cases hs : searchRE fallbackRE t with
  | none => rw [hs] at h; cases h
  | some caps =>
    rw [hs] at h
    simp only [Option.bind_eq_bind, Option.some_bind] at h
    exact ⟨_, h⟩

/-- C3: `parsePublishDate` is a total function (the JS `try` body contains
nothing that throws, so nothing ever escapes to the caller), and for every
input — empty, garbage, or well-formed — its result is either the empty
string or `toISOString` of a valid (clip-range) epoch-milliseconds value,
never a partially-parsed value; consequently `metadata.published_date` of
every extracted record is of the same shape. -/
theorem parsePublishDate_wellformed (cy : Nat) (s : String) (doc : PageDoc) :
    (parsePublishDate cy s = "" ∨
      ∃ ms : Int, -8640000000000000 ≤ ms ∧ ms ≤ 8640000000000000 ∧
        parsePublishDate cy s = toISOString ms) ∧
    ((extractMetadata cy doc).published_date = "" ∨
      ∃ ms : Int, -8640000000000000 ≤ ms ∧ ms ≤ 8640000000000000 ∧
        (extractMetadata cy doc).published_date = toISOString ms) := by
  have main : ∀ str : String, parsePublishDate cy str = "" ∨
      ∃ ms : Int, -8640000000000000 ≤ ms ∧ ms ≤ 8640000000000000 ∧
        parsePublishDate cy str = toISOString ms := by
    intro str
    by_cases he : str.data.isEmpty
    · exact Or.inl (by rw [parsePublishDate, if_pos he])
    · have hsplit : parsePublishDate cy str =
          (match branch1 (preprocessDate str.data) <|>
            branch2 cy (preprocessDate str.data) <|>
            branch3 (preprocessDate str.data) <|> branch4 (preprocessDate str.data) with
          | some ms => toISOString ms
          | none => "") := by
        rw [parsePublishDate, if_neg he]
      generalize hT : preprocessDate str.data = T at hsplit
      cases hall : branch1 T <|> branch2 cy T <|> branch3 T <|> branch4 T with
      | none =>
        rw [hall] at hsplit
        exact Or.inl hsplit
      | some ms =>
        rw [hall] at hsplit
        have hsome : branch1 T = some ms ∨ branch2 cy T = some ms ∨
            branch3 T = some ms ∨ branch4 T = some ms := by
          cases h1 : branch1 T with
          | some v =>
            rw [h1, Option.some_orElse] at hall
            exact Or.inl hall
          | none =>
            rw [h1, Option.none_orElse] at hall
            cases h2 : branch2 cy T with
            | some v =>
              rw [h2, Option.some_orElse] at hall
              exact Or.inr (Or.inl hall)
            | none =>
              rw [h2, Option.none_orElse] at hall
              cases h3 : branch3 T with
              | some v =>
                rw [h3, Option.some_orElse] at hall
                exact Or.inr (Or.inr (Or.inl hall))
              | none =>
                rw [h3, Option.none_orElse] at hall
                exact Or.inr (Or.inr (Or.inr hall))
        have hex : ∃ sParsed, v8ParseIso sParsed = some ms := by
          rcases hsome with h | h | h | h
          · exact branch1_from_parse _ ms h
          · exact branch2_from_parse cy _ ms h
          · exact branch3_from_parse _ ms h
          · exact branch4_from_parse _ ms h
        obtain ⟨sp, hsp⟩ := hex
        have hb := v8ParseIso_bound sp ms hsp
        exact Or.inr ⟨ms, hb.1, hb.2, hsplit⟩
  refine ⟨main s, ?_⟩
  rw [extractMetadata]
  by_cases ht : jsOr (strTrim doc.publishTimeText) (jsOr (strTrim doc.richMediaMetaTextText)
      (jsOr (doc.articlePublishedTimeContent.getD "") "")) ≠ ""
  · simp only [if_pos ht]
    exact main _
  · simp only [if_neg ht]
    left
    trivial

/-! ## The C1 grammar table: lemmas for the year-omitted Chinese form

The inputs of the table are concrete, so the regex matching is concrete;
only the current year `cy` is symbolic.  The lemmas below trace the
template `${cy}-10-29T16:21:00+08:00` through `new Date` and
`toISOString`. -/

theorem natCharsAux_irrel (n : Nat) : ∀ f g : Nat, n < f → n < g →
    natCharsAux f n = natCharsAux g n := by
  induction n using Nat.strong_induction_on with
  | _ n ih =>
    intro f g hf hg
    cases f with
    | zero => omega
    | succ f2 =>
      cases g with
      | zero => omega
      | succ g2 =>
        rw [natCharsAux, natCharsAux]
        by_cases h10 : n < 10
        · rw [if_pos h10, if_pos h10]
        · rw [if_neg h10, if_neg h10,
            ih (n / 10) (by omega) f2 g2 (by omega) (by omega)]

theorem natChars_step (n : Nat) (h : 10 ≤ n) :
    natChars n = natChars (n / 10) ++ [digitChar (n % 10)] := by
  rw [natChars, natChars, natCharsAux, if_neg (by omega),
    natCharsAux_irrel (n / 10) n (n / 10 + 1) (by omega) (by omega)]

theorem natChars_small (n : Nat) (h : n < 10) : natChars n = [digitChar n] := by
  rw [natChars, natCharsAux, if_pos h]

theorem digitChar_mod (n : Nat) : digitChar (n % 10) = digitChar n := by
  rw [digitChar, digitChar]
  congr 1
  omega

theorem natChars_four (cy : Nat) (h1 : 1000 ≤ cy) (h2 : cy ≤ 9999) :
    natChars cy = [digitChar (cy / 1000), digitChar (cy / 100), digitChar (cy / 10),
      digitChar cy] := by
  have e1 : natChars cy = natChars (cy / 10) ++ [digitChar cy] := by
    rw [natChars_step cy (by omega), digitChar_mod]
  have e2 : natChars (cy / 10) = natChars (cy / 100) ++ [digitChar (cy / 10)] := by
    rw [natChars_step (cy / 10) (by omega), digitChar_mod,
      show cy / 10 / 10 = cy / 100 from by omega]
  have e3 : natChars (cy / 100) = natChars (cy / 1000) ++ [digitChar (cy / 100)] := by
    rw [natChars_step (cy / 100) (by omega), digitChar_mod,
      show cy / 100 / 10 = cy / 1000 from by omega]
  have e4 : natChars (cy / 1000) = [digitChar (cy / 1000)] := natChars_small _ (by omega)
  rw [e1, e2, e3, e4]
  simp

theorem natChars_four_len (cy : Nat) (h1 : 1000 ≤ cy) (h2 : cy ≤ 9999) :
    (natChars cy).length = 4 := by
  rw [natChars_four cy h1 h2]
  rfl

theorem readDigit_digitChar (n : Nat) (rest : List Char) :
    readDigit (digitChar n :: rest) = some (n % 10, rest) := by
  have h : ∀ m, m < 10 →
      (Char.ofNat (48 + m)).isDigit = true ∧ (Char.ofNat (48 + m)).toNat - 48 = m := by
    decide
  have hm : n % 10 < 10 := Nat.mod_lt n (by omega)
  rw [readDigit, digitChar, if_pos (h _ hm).1, (h _ hm).2]

theorem read4_natChars (cy : Nat) (h1 : 1000 ≤ cy) (h2 : cy ≤ 9999) (rest : List Char) :
    read4 (natChars cy ++ rest) = some (cy, rest) := by
  rw [natChars_four cy h1 h2]
  simp only [List.cons_append, List.nil_append, read4, read2, readDigit_digitChar,
    Option.bind_eq_bind, Option.some_bind]
  have : 100 * (10 * (cy / 1000 % 10) + cy / 100 % 10) +
      (10 * (cy / 10 % 10) + cy % 10) = cy := by omega
  rw [this]

/-- The year-of-era reconstruction of `civilFromDays` inverts the day-of-era
computation of `daysFromCivil` for the fixed day-of-year 242 (October 29,
March-based).  Checked for the 400 years of an era. -/
theorem yoeRound : ∀ v : Nat, v < 400 →
    ((v * 365 + v / 4 - v / 100 + 242) - (v * 365 + v / 4 - v / 100 + 242) / 1460 +
      (v * 365 + v / 4 - v / 100 + 242) / 36524 -
      (v * 365 + v / 4 - v / 100 + 242) / 146096) / 365 = v := by
  decide

theorem civilFromDays_shifted (era yoe : Nat) (hyoe : yoe < 400) :
    civilFromDays (((era * 146097 + (yoe * 365 + yoe / 4 - yoe / 100 + 242) : Nat) : Int)
        - 865565) =
      (((yoe + era * 400 : Nat) : Int) - 400, 10, 29) := by
  simp only [civilFromDays]
  have hzn : ((((era * 146097 + (yoe * 365 + yoe / 4 - yoe / 100 + 242) : Nat) : Int)
      - 865565) + 865565).toNat = era * 146097 + (yoe * 365 + yoe / 4 - yoe / 100 + 242) := by
    omega
  rw [hzn]
  have hera : (era * 146097 + (yoe * 365 + yoe / 4 - yoe / 100 + 242)) / 146097 = era := by
    omega
  have hdoe : (era * 146097 + (yoe * 365 + yoe / 4 - yoe / 100 + 242)) % 146097 =
      yoe * 365 + yoe / 4 - yoe / 100 + 242 := by
    omega
  rw [hera, hdoe, yoeRound yoe hyoe]
  have hdoy : yoe * 365 + yoe / 4 - yoe / 100 + 242 - (365 * yoe + yoe / 4 - yoe / 100) =
      242 := by
    omega
  rw [hdoy]
  norm_num

theorem daysFromCivil_oct29 (cy : Nat) :
    daysFromCivil cy 10 29 =
      (((cy + 400) / 400 * 146097 + ((cy + 400) % 400 * 365 + (cy + 400) % 400 / 4 -
        (cy + 400) % 400 / 100 + 242) : Nat) : Int) - 865565 := rfl

theorem civilFromDays_oct29 (cy : Nat) :
    civilFromDays (daysFromCivil cy 10 29) = ((cy : Int), 10, 29) := by
  rw [daysFromCivil_oct29,
    civilFromDays_shifted ((cy + 400) / 400) ((cy + 400) % 400) (Nat.mod_lt _ (by omega))]
  have : (cy + 400) % 400 + (cy + 400) / 400 * 400 = cy + 400 := by omega
  rw [this]
  have : ((cy + 400 : Nat) : Int) - 400 = (cy : Int) := by omega
  rw [this]

theorem parseEsFields_template (cy : Nat) (h1 : 1000 ≤ cy) (h2 : cy ≤ 9999) :
    parseEsFields (natChars cy ++ ('-' :: '1' :: '0' :: '-' :: '2' :: '9' :: 'T' :: '1' ::
        '6' :: ':' :: '2' :: '1' :: ':' :: '0' :: '0' :: '+' :: '0' :: '8' :: ':' :: '0' ::
        '0' :: [])) =
      some ⟨cy, 10, 29, 16, 21, 0, 0, 480⟩ := by
  simp only [parseEsFields, Option.bind_eq_bind]
  rw [read4_natChars cy h1 h2]
  simp only [Option.some_bind]
  rfl

theorem instantOfFields_oct29 (cy : Nat) (h2 : cy ≤ 9999) :
    instantOfFields ⟨cy, 10, 29, 16, 21, 0, 0, 480⟩ =
      some (86400000 * daysFromCivil cy 10 29 + 30060000) := by
  rw [instantOfFields, if_pos ⟨h2, by norm_num⟩]
  congr 1
  dsimp only
  have hb := daysFromCivil_bounds cy 10 29 h2 (by omega) (by omega)
  omega

theorem toISOString_oct29 (cy : Nat) (h1 : 1000 ≤ cy) (h2 : cy ≤ 9999) :
    toISOString (86400000 * daysFromCivil cy 10 29 + 30060000) =
      String.mk (natChars cy ++ "-10-29T08:21:00.000Z".data) := by
  rw [toISOString]
  have hday : (86400000 * daysFromCivil cy 10 29 + 30060000) / 86400000 =
      daysFromCivil cy 10 29 := by omega
  have hrem : ((86400000 * daysFromCivil cy 10 29 + 30060000) % 86400000).toNat =
      30060000 := by omega
  rw [hday, hrem, civilFromDays_oct29 cy]
  have hy0 : ¬ ((cy : Int), (10 : Nat), (29 : Nat)).1 < 0 := by simp
  have hy1 : ((cy : Int), (10 : Nat), (29 : Nat)).1 ≤ 9999 := by
    simp
    omega
  rw [if_neg hy0, if_pos hy1]
  have htn : ((cy : Int), (10 : Nat), (29 : Nat)).1.toNat = cy := Int.toNat_natCast cy
  rw [htn]
  have hpad : padN 4 cy = natChars cy := by
    rw [padN, natChars_four_len cy h1 h2]
    simp
  rw [hpad]
  refine congrArg String.mk ?_
  dsimp only
  norm_num
  decide

/-- The captures of the Chinese grammar on the year-omitted input
`"10月29日 16:21"` (group 1, the year, does not participate). -/
def cnCaps1029 : Caps :=
  [(0, "10月29日 16:21".data), (6, ['2', '1']), (5, ['1', '6']),
    (3, ['2', '9']), (2, ['1', '0'])]

theorem yearOmitted_uses_currentYear (cy : Nat) (h1 : 1000 ≤ cy) (h2 : cy ≤ 9999) :
    parsePublishDate cy "10月29日 16:21" =
      String.mk (natChars cy ++ "-10-29T08:21:00.000Z".data) := by
  have hsplit : parsePublishDate cy "10月29日 16:21" =
      (match branch1 (preprocessDate "10月29日 16:21".data) <|>
        branch2 cy (preprocessDate "10月29日 16:21".data) <|>
        branch3 (preprocessDate "10月29日 16:21".data) <|>
        branch4 (preprocessDate "10月29日 16:21".data) with
      | some ms => toISOString ms
      | none => "") := by
    rw [parsePublishDate, if_neg (by decide)]
  have hb1 : branch1 (preprocessDate "10月29日 16:21".data) = none := by decide
  have hcaps : searchRE cnRE (preprocessDate "10月29日 16:21".data) = some cnCaps1029 := by
    decide
  have hb2 : branch2 cy (preprocessDate "10月29日 16:21".data) =
      some (86400000 * daysFromCivil cy 10 29 + 30060000) := by
    rw [branch2, hcaps]
    simp only [Option.bind_eq_bind, Option.some_bind]
    rw [show capGet cnCaps1029 1 = none from by decide,
      show capGet cnCaps1029 2 = some ['1', '0'] from by decide,
      show capGet cnCaps1029 3 = some ['2', '9'] from by decide,
      show capGet cnCaps1029 4 = none from by decide,
      show capGet cnCaps1029 5 = some ['1', '6'] from by decide,
      show capGet cnCaps1029 6 = some ['2', '1'] from by decide,
      show capGet cnCaps1029 7 = none from by decide]
    simp only [Option.getD_some, Option.getD_none]
    rw [show natOfDigits ['1', '0'] = 10 from by decide,
      show natOfDigits ['2', '9'] = 29 from by decide,
      show fixup12 [] (natOfDigits ['1', '6']) = 16 from by decide,
      show natOfDigits ['2', '1'] = 21 from by decide,
      show natOfDigits ['0'] = 0 from by decide,
      show padN 2 10 = ['1', '0'] from by decide,
      show padN 2 29 = ['2', '9'] from by decide,
      show padN 2 16 = ['1', '6'] from by decide,
      show padN 2 21 = ['2', '1'] from by decide,
      show padN 2 0 = ['0', '0'] from by decide]
    have hassoc : natChars cy ++ ['-', '1', '0'] ++ ['-', '2', '9'] ++ ['T', '1', '6'] ++
        [':', '2', '1'] ++ [':', '0', '0'] ++ ['+', '0', '8', ':', '0', '0'] =
        natChars cy ++ ('-' :: '1' :: '0' :: '-' :: '2' :: '9' :: 'T' :: '1' :: '6' :: ':' ::
          '2' :: '1' :: ':' :: '0' :: '0' :: '+' :: '0' :: '8' :: ':' :: '0' :: '0' :: []) := by
      simp
    rw [hassoc, v8ParseIso, parseEsFields_template cy h1 h2]
    simp only [Option.some_bind]
    exact instantOfFields_oct29 cy h2
  rw [hsplit, hb1, Option.none_orElse, hb2, Option.some_orElse]
  exact toISOString_oct29 cy h1 h2

/-- C1: the grammar table of `parsePublishDate` at current year 2025.  Each
supported grammar maps its example to exactly the specified UTC instant,
the year-omitted Chinese form uses the current calendar year (shown for
every four-digit current year), and unparseable input maps to the empty
string. -/
theorem parsePublishDate_grammar_table :
    parsePublishDate 2025 "2025年10月29日 16:21" = "2025-10-29T08:21:00.000Z" ∧
    parsePublishDate 2025 "2025年10月29日 下午 4:21" = "2025-10-29T08:21:00.000Z" ∧
    parsePublishDate 2025 "2025-10-29T16:21:00+0800" = "2025-10-29T08:21:00.000Z" ∧
    parsePublishDate 2025 "2025-10-29 16:21:00+08:00" = "2025-10-29T08:21:00.000Z" ∧
    parsePublishDate 2025 "2025-10-29 16:21" = "2025-10-29T08:21:00.000Z" ∧
    parsePublishDate 2025 "北京时间 2025-10-29 16:21" = "2025-10-29T08:21:00.000Z" ∧
    parsePublishDate 2025 "2025年10月29日 上午 12:21" = "2025-10-28T16:21:00.000Z" ∧
    parsePublishDate 2025 "2025年10月29日 下午 12:21" = "2025-10-29T04:21:00.000Z" ∧
    parsePublishDate 2025 "2025-10-29" = "2025-10-28T16:00:00.000Z" ∧
    parsePublishDate 2025 "2025-10-29T08:21:00Z" = "2025-10-29T08:21:00.000Z" ∧
    parsePublishDate 2025 "abc" = "" ∧
    (∀ cy : Nat, 1000 ≤ cy → cy ≤ 9999 →
      parsePublishDate cy "10月29日 16:21" =
        String.mk (natChars cy ++ "-10-29T08:21:00.000Z".data)) := by
  refine ⟨by decide, by decide, by decide, by decide, by decide, by decide, by decide,
    by decide, by decide, by decide, by decide, ?_⟩
  exact yearOmitted_uses_currentYear

/-- Witness for C1: the year-omitted conjunct instantiated at current year
2024 yields the 2024 instant. -/
theorem parsePublishDate_grammar_table_witness :
    parsePublishDate 2024 "10月29日 16:21" = "2024-10-29T08:21:00.000Z" := by
  have h := parsePublishDate_grammar_table.2.2.2.2.2.2.2.2.2.2.2 2024 (by decide) (by decide)
  rw [h]
  decide

/-! ## Claim theorems: the time-less Chinese date form -/

/-- Counterexample to C2: the Chinese grammar of the source
(src/scraper.js:520) makes the hour mandatory (`(\d{1,2})` after the
optional AM/PM marker is not optional), so the time-less text
`"2025年10月29日"` matches no grammar: `normalize` returns the empty
string, not the claimed default-midnight instant
`2025-10-28T16:00:00.000Z`. -/
theorem cnMissingTime_counterexample :
    parsePublishDate 2025 "2025年10月29日" = "" ∧
    parsePublishDate 2025 "2025年10月29日" ≠ "2025-10-28T16:00:00.000Z" := by
  constructor
  · decide
  · decide

/-- C2 as amended: a Chinese-calendar date text that omits the time
component entirely is *not* matched by the Chinese grammar (the hour is
mandatory in the regex), and since no other grammar applies to
`"2025年10月29日"`, `normalize` returns the empty string for every current
year — the `0:0:0` default applies only to the minute and second fields. -/
theorem cnMissingTime_amended (cy : Nat) :
    searchRE cnRE (preprocessDate "2025年10月29日".data) = none ∧
    parsePublishDate cy "2025年10月29日" = "" := by
  constructor
  · decide
  · rfl
